import Mathlib

/-
Verification development for the nfast_rules spreadsheet-cleaning scripts
(clean_nfast_rules.py, combine_groups_ips.py, combine_groups_ips_string.py)
and for the IP/subnet reconciliation design described in the repository
specification.

Python cell values are modelled by the type PyVal below: a spreadsheet cell
holds either a scalar (NaN, bool, int or str) or, when the scripts are called
programmatically, an already-parsed flat list of scalars.  The relevant
fragment of ast.literal_eval is modelled by literalEval: quoted strings
(single or double quotes, without backslash escapes), decimal integers
(optionally negative, no leading zeros, as in Python 3), None, True, False,
and flat list displays of such scalars, with Python-style surrounding
whitespace, empty lists and trailing commas.  Nested containers, floats,
tuples, dicts and escape sequences are outside the modelled fragment:
literalEval rejects them, which is only ever exercised by the theorems on
inputs inside the fragment.
-/

/-- A scalar Python value as found in a spreadsheet cell: NaN (missing),
a bool, an int, or a str. -/
inductive PyScalar where
  | noneV
  | boolV (b : Bool)
  | intV (n : Int)
  | strV (s : String)
deriving DecidableEq

/-- A Python value passed to the row-processing functions: a scalar cell
value or an already-parsed flat list of scalars. -/
inductive PyVal where
  | scalar (v : PyScalar)
  | list (l : List PyScalar)
deriving DecidableEq

/-- The single-quote character, used by Python repr of strings. -/
def pyQuote : String := String.singleton (Char.ofNat 39)

/-- Python str() of a scalar: NaN prints as nan, booleans as True/False,
ints in decimal, strings as themselves. -/
def PyScalar.pyStr : PyScalar → String
  | .noneV => "nan"
  | .boolV true => "True"
  | .boolV false => "False"
  | .intV n => toString n
  | .strV s => s

/-- Python repr() of a scalar: like str() except strings gain single
quotes (the common case; quote-escaping is outside the modelled fragment). -/
def PyScalar.pyRepr : PyScalar → String
  | .strV s => pyQuote ++ s ++ pyQuote
  | v => v.pyStr

/-- Python str() of a list value, which is its repr: elements are repr-ed
and joined by a comma and a space inside square brackets. -/
def pyListRepr (l : List PyScalar) : String :=
  "[" ++ String.intercalate ", " (l.map PyScalar.pyRepr) ++ "]"

/-- Python str() of a cell value. -/
def PyVal.pyStr : PyVal → String
  | .scalar v => v.pyStr
  | .list l => pyListRepr l

/-- pandas pd.isna on a cell value: true exactly for the missing value. -/
def isna : PyVal → Bool
  | .scalar .noneV => true
  | _ => false

/-- Whitespace characters skipped by Python around literals. -/
def isPyWs (c : Char) : Bool := c = ' ' || c = '\t' || c = '\n' || c = '\r'

/-- Drop leading literal whitespace. -/
def skipWs (cs : List Char) : List Char := cs.dropWhile isPyWs

/-- Python str.strip() on a character list: drop leading and trailing
whitespace. -/
def stripChars (cs : List Char) : List Char :=
  ((cs.dropWhile isPyWs).reverse.dropWhile isPyWs).reverse

/-- Python str.strip() on a string. -/
def pyStrip (s : String) : String := String.mk (stripChars s.data)

/-- Scan the body of a quoted string literal up to the closing quote.
Backslash escapes are outside the modelled fragment and make the scan fail. -/
def strBody (q : Char) : List Char → Option (List Char × List Char)
  | [] => none
  | c :: rest =>
    if c = q then some ([], rest)
    else if c = '\\' then none
    else
      match strBody q rest with
      | some (a, b) => some (c :: a, b)
      | none => none

/-- Numeric value of a list of decimal digits. -/
def digitsVal (l : List Char) : Nat := l.foldl (fun a c => a * 10 + (c.toNat - 48)) 0

/-- Parse a decimal integer literal (optional minus sign, no leading zeros,
as in Python 3 where 007 is a syntax error). -/
def decLit (cs : List Char) : Option (PyScalar × List Char) :=
  let neg := cs.head? = some '-'
  let cs1 := if neg then cs.drop 1 else cs
  let ds := cs1.takeWhile Char.isDigit
  let rest := cs1.dropWhile Char.isDigit
  if ds = [] then none
  else if ds.length > 1 && ds.head? = some '0' then none
  else
    let v : Int := Int.ofNat (digitsVal ds)
    some (.intV (if neg then -v else v), rest)

/-- Parse the keyword literals None, True and False. -/
def kwLit (cs : List Char) : Option (PyScalar × List Char) :=
  if List.isPrefixOf "None".data cs then some (.noneV, cs.drop 4)
  else if List.isPrefixOf "True".data cs then some (.boolV true, cs.drop 4)
  else if List.isPrefixOf "False".data cs then some (.boolV false, cs.drop 5)
  else none

/-- Parse one scalar literal: a quoted string, an integer, or a keyword. -/
def scalarLit (cs : List Char) : Option (PyScalar × List Char) :=
  match cs with
  | [] => none
  | c :: rest =>
    if c = '"' || c = Char.ofNat 39 then
      match strBody c rest with
      | some (body, after) => some (.strV (String.mk body), after)
      | none => none
    else if c.isDigit || c = '-' then decLit cs
    else kwLit cs

/-- Parse the comma-separated elements of a list display after the opening
bracket, allowing the empty list and a trailing comma.  The fuel argument
dominates the number of characters consumed. -/
def elemsLit : Nat → List Char → List PyScalar → Option (List PyScalar × List Char)
  | 0, _, _ => none
  | fuel + 1, cs, acc =>
    match skipWs cs with
    | ']' :: rest => some (acc.reverse, rest)
    | cs1 =>
      match scalarLit cs1 with
      | none => none
      | some (v, rest) =>
        match skipWs rest with
        | ',' :: rest3 => elemsLit fuel rest3 (v :: acc)
        | ']' :: rest3 => some ((v :: acc).reverse, rest3)
        | _ => none

/-- Model of ast.literal_eval on the fragment described at the top of the
file: returns the parsed value, or none when Python would raise. -/
def literalEval (s : String) : Option PyVal :=
  match skipWs s.data with
  | '[' :: rest =>
    match elemsLit (rest.length + 1) rest [] with
    | some (l, after) => if skipWs after = [] then some (.list l) else none
    | none => none
  | cs =>
    match scalarLit cs with
    | some (v, after) => if skipWs after = [] then some (.scalar v) else none
    | none => none

example : literalEval "[]" = some (.list []) := by decide
example : literalEval "42" = some (.scalar (.intV 42)) := by decide
example : literalEval "not-an-ip" = none := by decide
example : literalEval "" = none := by decide
example : literalEval "[\"1.2.3.4\", \"10.0.0.0/24\"]"
    = some (.list [.strV "1.2.3.4", .strV "10.0.0.0/24"]) := by decide
example : literalEval " [1, 2,] " = some (.list [.intV 1, .intV 2]) := by decide
example : literalEval "[unquoted]" = none := by decide

/-
Embedding of clean_nfast_rules.py.  The regular expressions of
is_ip_or_subnet and is_ip_range are deterministic up to backtracking
(a digit run of the wrong length can never be rescued by backtracking,
because the following pattern character is never a digit), so they are
modelled by greedy digit scans.
-/

namespace NfastRules

/-- Consume one regex octet, a run of one to three decimal digits. -/
def reOctet (cs : List Char) : Option (List Char) :=
  let ds := cs.takeWhile Char.isDigit
  if ds.length ≥ 1 && ds.length ≤ 3 then some (cs.drop ds.length) else none

/-- Consume a literal dot followed by a regex octet. -/
def reDotOctet (cs : List Char) : Option (List Char) :=
  match cs with
  | '.' :: r => reOctet r
  | _ => none

/-- Consume a dotted quad: four one-to-three digit runs separated by dots. -/
def reQuad (cs : List Char) : Option (List Char) :=
  ((((reOctet cs).bind reDotOctet).bind reDotOctet).bind reDotOctet)

/-- Full match of the is_ip_or_subnet regex: a dotted quad, optionally
followed by a slash and one or two digits, then end of string. -/
def ipOrSubnetCore (s : String) : Bool :=
  match reQuad s.data with
  | none => false
  | some rest =>
    match rest with
    | [] => true
    | '/' :: r =>
      let ds := r.takeWhile Char.isDigit
      ds.length ≥ 1 && ds.length ≤ 2 && r.drop ds.length = []
    | _ => false

/-- Full match of the is_ip_range regex: a dotted quad, a hyphen, and a
second dotted quad, then end of string. -/
def ipRangeCore (s : String) : Bool :=
  match reQuad s.data with
  | some ('-' :: r) =>
    match reQuad r with
    | some [] => true
    | _ => false
  | _ => false

/-- is_ip_or_subnet from clean_nfast_rules.py: stringify, strip, and match
the IP-or-CIDR pattern. -/
def is_ip_or_subnet (s : PyScalar) : Bool := ipOrSubnetCore (pyStrip s.pyStr)

/-- is_ip_range from clean_nfast_rules.py: stringify, strip, and match the
x.x.x.x-y.y.y.y pattern. -/
def is_ip_range (s : PyScalar) : Bool := ipRangeCore (pyStrip s.pyStr)

/-- parse_list_string from clean_nfast_rules.py on its full input domain.
The opening test, pd.isna(s) or s == '', drives the outcome.  On a scalar
input pd.isna is a plain bool and the function never raises: a missing or
empty value yields [], any other scalar has its string form evaluated as
a Python literal, a list literal yields that list, a non-list literal is
wrapped in a singleton, and an evaluation failure yields [].  On a list
input, however, pd.isna returns an elementwise boolean array, and using
that array as a truth value raises ValueError unless it has exactly one
element (NumPy 1.25 and later also raise on the empty array, which the
model follows), so the isinstance-list branch is reachable only through a
one-element list: a missing single element makes the condition true and
yields [], any other single element returns the list unchanged. -/
def parse_list_stringE (s : PyVal) : Except String (List PyScalar) :=
  match s with
  | .list [x] => if x = .noneV then .ok [] else .ok [x]
  | .list _ => .error "ValueError"
  | .scalar w =>
    if w = .noneV || w = .strV "" then .ok []
    else
      match literalEval w.pyStr with
      | some (.list l) => .ok l
      | some (.scalar v) => .ok [v]
      | none => .ok []

/-- parse_list_string as the clean_data row loop sees it: cells read from
a spreadsheet are always scalars, on which the source never raises and
agrees with parse_list_stringE; the raising list inputs, which cannot
reach the row loop, are mapped to [] to keep the function total. -/
def parse_list_string (s : PyVal) : List PyScalar :=
  match parse_list_stringE s with
  | .ok l => l
  | .error _ => []

/-- extract_ips_from_groups from clean_nfast_rules.py: keep the stripped
string form of every entry that matches the IP-or-CIDR pattern. -/
def extract_ips_from_groups (l : List PyScalar) : List String :=
  l.filterMap (fun item =>
    let s := pyStrip item.pyStr
    if is_ip_or_subnet (.strV s) then some s else none)

/-- One side of the per-row cleaning loop of clean_data, producing the new
list for the IP column: parse both cells, extract IPs from the groups,
combine through a Python set - modelled as dedup followed by an arbitrary
reordering function standing for the hash-dependent set iteration order -
and drop entries matching the IP-range pattern. -/
def cleanRowSideList (order : List PyScalar → List PyScalar)
    (ipCell grpCell : PyVal) : List PyScalar :=
  let groups := parse_list_string grpCell
  let ips := parse_list_string ipCell
  let extracted := (extract_ips_from_groups groups).map PyScalar.strV
  (order ((ips ++ extracted).dedup)).filter (fun v => !(is_ip_range v))

/-- The string written back into the IP column: Python str() of the
combined, filtered list. -/
def cleanRowSideStr (order : List PyScalar → List PyScalar)
    (ipCell grpCell : PyVal) : String :=
  pyListRepr (cleanRowSideList order ipCell grpCell)

/-- A dataframe row: an association list from column name to cell value. -/
abbrev Row := List (String × PyVal)

/-- Read a cell by column name (missing value when the column is absent;
the scripts only read columns they have checked for). -/
def getCellD (r : Row) (c : String) : PyVal :=
  match r.find? (fun p => p.1 == c) with
  | some p => p.2
  | none => .scalar .noneV

/-- df.at assignment: replace the value stored under a column name. -/
def setCell (r : Row) (c : String) (v : PyVal) : Row :=
  r.map (fun p => if p.1 == c then (p.1, v) else p)

/-- A dataframe: a column header and a list of rows. -/
structure Table where
  header : List String
  rows : List Row
deriving DecidableEq

/-- The columns clean_data requires. -/
def requiredColumns : List String :=
  ["Source Groups", "Source IP", "Destination Groups", "Destination IP"]

/-- The required columns absent from a dataframe, in required order. -/
def missingColumnsOf (t : Table) : List String :=
  requiredColumns.filter (fun c => !(t.header.contains c))

/-- The body of the clean_data row loop: rewrite Source IP from Source
Groups and Source IP, and Destination IP from Destination Groups and
Destination IP. -/
def processRow (order : List PyScalar → List PyScalar) (r : Row) : Row :=
  let s := cleanRowSideStr order (getCellD r "Source IP") (getCellD r "Source Groups")
  let d := cleanRowSideStr order (getCellD r "Destination IP") (getCellD r "Destination Groups")
  setCell (setCell r "Source IP" (.scalar (.strV s))) "Destination IP" (.scalar (.strV d))

/-- The full row loop: every row is processed, in order. -/
def processRows (order : List PyScalar → List PyScalar) (t : Table) : Table :=
  ⟨t.header, t.rows.map (processRow order)⟩

/-- The external conditions a run of clean_data meets: whether the input
file exists, whether the backup copy succeeds, what the Excel read returns
(none models a read exception), and whether the final save succeeds. -/
structure RunEnv where
  inputExists : Bool
  backupOk : Bool
  readResult : Option Table
  saveOk : Bool
deriving DecidableEq

/-- How a run of clean_data ends, mirroring its early returns. -/
inductive RunResult where
  | missingInput
  | readError
  | missingCols (missing : List String) (available : List String)
  | saveError
  | success (out : Table)
deriving DecidableEq

/-- Observable outcome of a run: the result, the output file contents if
one was written, and the warnings printed along the way. -/
structure RunOutput where
  result : RunResult
  written : Option Table
  warnings : List String
deriving DecidableEq

/-- clean_data from clean_nfast_rules.py as a function of its external
conditions: missing input aborts at once; the backup is attempted next and
its failure only records a warning; a read error aborts; missing required
columns abort, reporting both the missing and the available columns; only
then are the rows processed and the output written. -/
def clean_data (order : List PyScalar → List PyScalar) (env : RunEnv)
    (createBackup : Bool) : RunOutput :=
  if !env.inputExists then ⟨.missingInput, none, []⟩
  else
    let warns := if createBackup && !env.backupOk then ["backup-failed"] else []
    match env.readResult with
    | none => ⟨.readError, none, warns⟩
    | some df =>
      if missingColumnsOf df ≠ [] then
        ⟨.missingCols (missingColumnsOf df) df.header, none, warns⟩
      else
        let out := processRows order df
        if env.saveOk then ⟨.success out, some out, warns⟩
        else ⟨.saveError, none, warns⟩

example : is_ip_or_subnet (.strV "10.0.0.5") = true := by decide
example : is_ip_or_subnet (.strV "10.0.0.0/24") = true := by decide
example : is_ip_or_subnet (.strV " 999.1.2.3 ") = true := by decide
example : is_ip_or_subnet (.strV "1.2.3") = false := by decide
example : is_ip_or_subnet (.strV "1.2.3.4-5.6.7.8") = false := by decide
example : is_ip_range (.strV "0.0.0.0-9.255.255.255") = true := by decide
example : is_ip_range (.strV "1.2.3.4") = false := by decide
example : parse_list_string (.scalar (.strV "[\"a\", \"1.2.3.4\"]"))
    = [.strV "a", .strV "1.2.3.4"] := by decide
example : parse_list_string (.scalar (.strV "42")) = [.intV 42] := by decide
example : parse_list_string (.scalar (.strV "garbage[")) = [] := by decide
example : parse_list_string (.scalar .noneV) = [] := by decide
example : extract_ips_from_groups [.strV "web-servers", .strV "10.0.0.0/24"]
    = ["10.0.0.0/24"] := by decide

end NfastRules

/- Embedding of combine_groups_ips.py (only the parts the claims touch). -/

namespace CombineGroups

/-- parse_list_string from combine_groups_ips.py on its full input
domain: like the clean_nfast_rules.py version - including the ValueError
raised when pd.isna is truth-tested on a list of other than one element -
with an extra early return on the literal string for an empty list
display (a comparison a list input never satisfies). -/
def parse_list_stringE (s : PyVal) : Except String (List PyScalar) :=
  match s with
  | .list [x] => if x = .noneV then .ok [] else .ok [x]
  | .list _ => .error "ValueError"
  | .scalar w =>
    if w = .noneV || w = .strV "" || w = .strV "[]" then .ok []
    else
      match literalEval w.pyStr with
      | some (.list l) => .ok l
      | some (.scalar v) => .ok [v]
      | none => .ok []

/-- The combine_data row loop's view of parse_list_string: identical to
parse_list_stringE on the scalar cells the loop reads, total by mapping
the raising list inputs to []. -/
def parse_list_string (s : PyVal) : List PyScalar :=
  match parse_list_stringE s with
  | .ok l => l
  | .error _ => []

end CombineGroups

/- Embedding of combine_groups_ips_string.py. -/

namespace CombineStr

/-- Python str.rstrip with a one-character argument: drop every trailing
occurrence of that character. -/
def rstripChar (c : Char) (s : String) : String :=
  String.mk ((s.data.reverse.dropWhile (fun x => x = c)).reverse)

/-- Python str.lstrip with a one-character argument: drop every leading
occurrence of that character. -/
def lstripChar (c : Char) (s : String) : String :=
  String.mk (s.data.dropWhile (fun x => x = c))

/-- The normalisation at the top of combine_list_strings: a missing value,
or one whose stripped string form is empty, an empty list display, or the
text nan, becomes the empty list display; anything else becomes its
stripped string form.  As in parse_list_stringE, the source's pd.isna
raises ValueError when truth-tested on a multi-element list argument;
combine_data only ever passes spreadsheet cells, so the model covers the
scalar domain faithfully and treats a list argument through its display
string. -/
def normArg (v : PyVal) : String :=
  if isna v || (pyStrip v.pyStr = "" || pyStrip v.pyStr = "[]" || pyStrip v.pyStr = "nan")
  then "[]"
  else pyStrip v.pyStr

/-- combine_list_strings from combine_groups_ips_string.py: normalise both
arguments, return the other argument when one side is the empty list
display, and otherwise splice the two list displays together by dropping
the closing bracket of the first and the opening bracket of the second. -/
def combine_list_strings (groups ips : PyVal) : String :=
  let gs := normArg groups
  let ps := normArg ips
  if gs = "[]" && ps = "[]" then "[]"
  else if gs = "[]" then ps
  else if ps = "[]" then gs
  else pyStrip (rstripChar ']' gs) ++ ", " ++ pyStrip (lstripChar '[' ps)

example : combine_list_strings (.scalar (.strV "[\"a\"]")) (.scalar (.strV "[\"b\"]"))
    = "[\"a\", \"b\"]" := by decide
example : combine_list_strings (.scalar .noneV) (.scalar (.strV "[\"b\"]"))
    = "[\"b\"]" := by decide
example : combine_list_strings (.scalar (.strV "nan")) (.scalar (.strV "[]"))
    = "[]" := by decide

end CombineStr

/-
Model of the Entry Classifier and Layered Lookup Index of the
specification.  The scripts the specification derives these components
from (the IP/subnet reconciliation pipeline said to recur across
analyze_ips.py, map_environments.py and map_itam_names.py) are not present
in the source tree - the files with those names hold unrelated programs -
so the definitions below are built from the specification text alone.
-/

namespace Spec

/-- An ASCII hexadecimal digit, as allowed in an IPv6 group. -/
def isHexDigitC (c : Char) : Bool :=
  c.isDigit || (c ≥ 'a' && c ≤ 'f') || (c ≥ 'A' && c ≤ 'F')

/-- Split a character list on every occurrence of one character, keeping
empty pieces, like str.split with a one-character separator. -/
def splitOnChar (c : Char) (cs : List Char) : List (List Char) :=
  cs.foldr
    (fun x acc =>
      match acc with
      | [] => [[x]]
      | a :: as => if x = c then [] :: (a :: as) else (x :: a) :: as)
    [[]]

/-- Modelled from the spec: one decimal octet of an IPv4 address, one to
three digits, value at most 255, no leading zero (Python ip_address
rejects leading zeros). -/
def validOctetChars (cs : List Char) : Bool :=
  cs.length ≥ 1 && cs.length ≤ 3 && cs.all Char.isDigit &&
  (cs.length = 1 || cs.head? ≠ some '0') && digitsVal cs ≤ 255

/-- Modelled from the spec: a syntactically valid IPv4 address, four valid
octets separated by dots. -/
def isValidIPv4Chars (cs : List Char) : Bool :=
  match splitOnChar '.' cs with
  | [a, b, c, d] =>
    validOctetChars a && validOctetChars b && validOctetChars c && validOctetChars d
  | _ => false

/-- One IPv6 group: one to four hexadecimal digits. -/
def hextetOk (cs : List Char) : Bool :=
  cs.length ≥ 1 && cs.length ≤ 4 && cs.all isHexDigitC

/-- Split at the first double colon, if any. -/
def splitDoubleColon : List Char → Option (List Char × List Char)
  | [] => none
  | ':' :: ':' :: rest => some ([], rest)
  | c :: rest =>
    match splitDoubleColon rest with
    | some (a, b) => some (c :: a, b)
    | none => none

/-- Whether a double colon occurs anywhere. -/
def hasDoubleColon : List Char → Bool
  | ':' :: ':' :: _ => true
  | _ :: rest => hasDoubleColon rest
  | [] => false

/-- Group count of the part before a double colon: empty means no groups,
otherwise every colon-separated piece must be a valid group. -/
def leftGroups (cs : List Char) : Option Nat :=
  if cs = [] then some 0
  else
    let ps := splitOnChar ':' cs
    if ps.all hextetOk then some ps.length else none

/-- Group count of the part after a double colon: as on the left, except
the final piece may be an embedded IPv4 address, which counts as two
groups. -/
def rightGroups (cs : List Char) : Option Nat :=
  if cs = [] then some 0
  else
    let ps := splitOnChar ':' cs
    match ps.getLast? with
    | none => none
    | some t =>
      if ps.dropLast.all hextetOk then
        if hextetOk t then some ps.length
        else if isValidIPv4Chars t then some (ps.length + 1)
        else none
      else none

/-- Modelled from the spec: a syntactically valid IPv6 address - eight
groups (a trailing embedded IPv4 address counting as two), with at most
one double colon standing for at least one omitted zero group. -/
def isValidIPv6Chars (cs : List Char) : Bool :=
  match splitDoubleColon cs with
  | some (l, r) =>
    if hasDoubleColon r then false
    else
      match leftGroups l, rightGroups r with
      | some a, some b => a + b ≤ 7
      | _, _ => false
  | none =>
    let ps := splitOnChar ':' cs
    (ps.length = 8 && ps.all hextetOk) ||
    (ps.length = 7 && (ps.take 6).all hextetOk &&
      (match ps.getLast? with
       | some t => isValidIPv4Chars t
       | none => false))

/-- Modelled from the spec: a string parses as a valid IPv4 or IPv6
address. -/
def isValidAddress (s : String) : Bool :=
  isValidIPv4Chars s.data || isValidIPv6Chars s.data

/-- A CIDR mask length: decimal digits without a leading zero, at most the
full length of the address family. -/
def maskOk (cs : List Char) (mx : Nat) : Bool :=
  cs ≠ [] && cs.all Char.isDigit && (cs.length = 1 || cs.head? ≠ some '0') &&
  digitsVal cs ≤ mx

/-- Modelled from the spec: a string parses as a CIDR network - an address,
a slash, and a mask length bounded by the family's full length.  Host bits
are not required to be zero (the spec classifies 192.168.5.10/24 as a
subnet). -/
def isValidNetwork (s : String) : Bool :=
  match splitOnChar '/' s.data with
  | [a, p] => (isValidIPv4Chars a && maskOk p 32) || (isValidIPv6Chars a && maskOk p 128)
  | _ => false

/-- A network whose mask is the full length of its family: /32 for IPv4,
/128 for IPv6 - the spec's host route. -/
def isHostNet (s : String) : Bool :=
  match splitOnChar '/' s.data with
  | [a, p] => (isValidIPv4Chars a && p = "32".data) || (isValidIPv6Chars a && p = "128".data)
  | _ => false

/-- The four classes the spec's Entry Classifier assigns. -/
inductive EntryClass where
  | singleIp
  | hostRoute
  | subnet
  | unparseable
deriving DecidableEq

/-- Modelled from the spec: the Entry Classifier.  Trim, then: a valid
network with a full-length mask is a host route, any other valid network
is a subnet, a valid bare address is a single IP, and everything else -
including the empty string - is unparseable. -/
def classify (raw : String) : EntryClass :=
  let s := pyStrip raw
  if isValidNetwork s then
    if isHostNet s then .hostRoute else .subnet
  else if isValidAddress s then .singleIp
  else .unparseable

example : classify "10.0.0.5" = .singleIp := by decide
example : classify "10.0.0.5/32" = .hostRoute := by decide
example : classify "10.0.0.0/24" = .subnet := by decide
example : classify "192.168.5.10/24" = .subnet := by decide
example : classify "not-an-ip" = .unparseable := by decide
example : classify "" = .unparseable := by decide
example : classify "10.0.0" = .unparseable := by decide
example : classify "10.0.0.abc" = .unparseable := by decide
example : classify "999.0.0.1" = .unparseable := by decide
example : classify "10.0.0.5/33" = .unparseable := by decide
example : classify "::1" = .singleIp := by decide
example : classify "fe80::1/128" = .hostRoute := by decide
example : classify "2001:db8::/32" = .subnet := by decide
example : classify "1:2:3:4:5:6:7:8" = .singleIp := by decide
example : classify "1:2:3:4:5:6:7:8:9" = .unparseable := by decide
example : classify "1::2::3" = .unparseable := by decide
example : classify " 10.0.0.5 " = .singleIp := by decide

/-- A subnet reference table of the spec's Layered Lookup Index: a name
and rows of key/attribute pairs. -/
structure SubnetTable (α : Type) where
  name : String
  entries : List (String × α)
deriving DecidableEq

/-- Modelled from the spec: the mapping built from one table - keys are
trimmed, lookups are exact-string, and a duplicate key is won by the later
row (last write wins). -/
def buildLookup {α : Type} (rows : List (String × α)) (key : String) : Option α :=
  rows.foldl (fun acc r => if pyStrip r.1 = key then some r.2 else acc) none

/-- Modelled from the spec: subnet lookup - trim the key, probe each
subnet table in priority order, and return the first hit's attributes
annotated with the matched table's name; none models NotFound. -/
def lookupSubnet {α : Type} (tables : List (SubnetTable α)) (key : String) :
    Option (String × α) :=
  tables.findSome? (fun t => (buildLookup t.entries (pyStrip key)).map (fun a => (t.name, a)))

end Spec

/-
Claim theorems.  C1 and C2 concern the Entry Classifier and the Layered
Lookup Index, whose implementation is absent from the source tree and is
therefore modelled from the specification (namespace Spec above).
-/

/-- C1: classification is a total function assigning exactly one of the
four categories; it maps 10.0.0.5 to single-ip, 10.0.0.5/32 to host-route,
10.0.0.0/24 to subnet, and returns unparseable exactly for the strings
that parse neither as an address nor as a CIDR network - including stray
text, partial IPs and non-numeric octets - without ever raising. -/
theorem C1_classify_total_deterministic :
    (∀ s : String, Spec.classify s = .singleIp ∨ Spec.classify s = .hostRoute ∨
      Spec.classify s = .subnet ∨ Spec.classify s = .unparseable) ∧
    Spec.classify "10.0.0.5" = .singleIp ∧
    Spec.classify "10.0.0.5/32" = .hostRoute ∧
    Spec.classify "10.0.0.0/24" = .subnet ∧
    Spec.classify "not-an-ip" = .unparseable ∧
    Spec.classify "" = .unparseable ∧
    Spec.classify "10.0.0" = .unparseable ∧
    Spec.classify "10.0.0.abc" = .unparseable ∧
    (∀ s : String, Spec.classify s = .unparseable ↔
      (Spec.isValidAddress (pyStrip s) = false ∧ Spec.isValidNetwork (pyStrip s) = false)) := by
  refine ⟨fun s => ?_, by decide, by decide, by decide, by decide, by decide,
    by decide, by decide, fun s => ?_⟩
  · cases h : Spec.classify s <;> simp [h]
  · have hcl : Spec.classify s =
        (if Spec.isValidNetwork (pyStrip s) then
          (if Spec.isHostNet (pyStrip s) then .hostRoute else .subnet)
        else if Spec.isValidAddress (pyStrip s) then .singleIp else .unparseable) := rfl
    rw [hcl]
    by_cases h1 : Spec.isValidNetwork (pyStrip s) <;>
      by_cases h2 : Spec.isValidAddress (pyStrip s) <;>
      simp [h1, h2] <;> split <;> simp

/-- C2: subnet lookup trims the key and probes the subnet tables in their
priority order: when the tables split as pre ++ t :: post with the key
absent from every table of pre and present in t, the result is t's
attributes annotated with t's name; when no table contains the key the
result is NotFound (none), and conversely. -/
theorem C2_lookup_priority {α : Type} (tables : List (Spec.SubnetTable α)) (key : String) :
    (Spec.lookupSubnet tables key = none ↔
      ∀ t ∈ tables, Spec.buildLookup t.entries (pyStrip key) = none) ∧
    (∀ (pre post : List (Spec.SubnetTable α)) (t : Spec.SubnetTable α) (a : α),
      tables = pre ++ t :: post →
      (∀ u ∈ pre, Spec.buildLookup u.entries (pyStrip key) = none) →
      Spec.buildLookup t.entries (pyStrip key) = some a →
      Spec.lookupSubnet tables key = some (t.name, a)) := by
  constructor
  · unfold Spec.lookupSubnet
    rw [List.findSome?_eq_none_iff]
    constructor
    · intro h t ht
      simpa using h t ht
    · intro h t ht
      simp [h t ht]
  · intro pre post t a heq hpre hhit
    subst heq
    revert hpre
    induction pre with
    | nil =>
      intro _
      unfold Spec.lookupSubnet
      rw [List.nil_append, List.findSome?_cons, hhit]
      rfl
    | cons u us ih =>
      intro hpre
      have hu : Spec.buildLookup u.entries (pyStrip key) = none := hpre u (by simp)
      unfold Spec.lookupSubnet at ih ⊢
      rw [List.cons_append, List.findSome?_cons, hu]
      exact ih (fun w hw => hpre w (by simp [hw]))

/-- C2 witness: two subnet tables T1 and T2 both hold the key 10.0.0.0/24
with different attributes; lookup returns T1's attributes tagged with T1. -/
theorem C2_lookup_priority_witness :
    Spec.lookupSubnet
      [⟨"T1", [("10.0.0.0/24", "prod")]⟩, ⟨"T2", [("10.0.0.0/24", "dev")]⟩]
      "10.0.0.0/24" = some ("T1", "prod") :=
  (C2_lookup_priority
      [⟨"T1", [("10.0.0.0/24", "prod")]⟩, ⟨"T2", [("10.0.0.0/24", "dev")]⟩]
      "10.0.0.0/24").2
    [] [⟨"T2", [("10.0.0.0/24", "dev")]⟩] ⟨"T1", [("10.0.0.0/24", "prod")]⟩ "prod"
    rfl (fun u hu => absurd hu (List.not_mem_nil u)) (by decide)

/-- C3 counterexample: on the row whose Source IP cell holds two distinct
addresses, two admissible set-iteration orders (the identity and the
reversal, which permute the same deduplicated list, as Python's
hash-seed-dependent set ordering does) serialize the rewritten column to
different byte strings, so the serialized output is not a function of the
input columns alone. -/
theorem C3_counterexample_order_dependent :
    (NfastRules.cleanRowSideList id
        (.scalar (.strV "[\"1.1.1.1\", \"2.2.2.2\"]")) (.scalar (.strV "[]"))).Perm
      (NfastRules.cleanRowSideList List.reverse
        (.scalar (.strV "[\"1.1.1.1\", \"2.2.2.2\"]")) (.scalar (.strV "[]"))) ∧
    NfastRules.cleanRowSideStr id
        (.scalar (.strV "[\"1.1.1.1\", \"2.2.2.2\"]")) (.scalar (.strV "[]")) ≠
      NfastRules.cleanRowSideStr List.reverse
        (.scalar (.strV "[\"1.1.1.1\", \"2.2.2.2\"]")) (.scalar (.strV "[]")) := by
  constructor
  · decide
  · decide

/-- C3 (amended): what is deterministic in the rewritten IP columns is
their content as a set: any two runs, whatever their set-iteration
orders, produce permutations of each other and hence the same finite set
of entries; byte-identical output is only guaranteed when the iteration
order (the hash seed) is unchanged between the runs. -/
theorem C3_amended_entry_set_deterministic
    (o1 o2 : List PyScalar → List PyScalar)
    (h1 : ∀ l, (o1 l).Perm l) (h2 : ∀ l, (o2 l).Perm l)
    (ipCell grpCell : PyVal) :
    (NfastRules.cleanRowSideList o1 ipCell grpCell).Perm
      (NfastRules.cleanRowSideList o2 ipCell grpCell) ∧
    (NfastRules.cleanRowSideList o1 ipCell grpCell).toFinset =
      (NfastRules.cleanRowSideList o2 ipCell grpCell).toFinset := by
  have hp : (NfastRules.cleanRowSideList o1 ipCell grpCell).Perm
      (NfastRules.cleanRowSideList o2 ipCell grpCell) := by
    unfold NfastRules.cleanRowSideList
    exact ((h1 _).filter _).trans (((h2 _).filter _).symm)
  exact ⟨hp, List.toFinset_eq_of_perm _ _ hp⟩

/-- C3 witness: the amended theorem applied to the counterexample row and
the identity and reversal orders. -/
theorem C3_amended_entry_set_deterministic_witness :
    (NfastRules.cleanRowSideList id
        (.scalar (.strV "[\"1.1.1.1\", \"2.2.2.2\"]")) (.scalar (.strV "[]"))).toFinset =
      (NfastRules.cleanRowSideList List.reverse
        (.scalar (.strV "[\"1.1.1.1\", \"2.2.2.2\"]")) (.scalar (.strV "[]"))).toFinset :=
  (C3_amended_entry_set_deterministic id List.reverse
    (fun l => List.Perm.refl l) (fun l => List.reverse_perm l)
    (.scalar (.strV "[\"1.1.1.1\", \"2.2.2.2\"]")) (.scalar (.strV "[]"))).2

/-- setCell keeps every pair's key, so reading any other column through
getCellD is unchanged. -/
theorem getCellD_setCell_ne (r : NfastRules.Row) (c c2 : String) (v : PyVal)
    (h : c2 ≠ c) :
    NfastRules.getCellD (NfastRules.setCell r c v) c2 = NfastRules.getCellD r c2 := by
  induction r with
  | nil => rfl
  | cons p rest ih =>
    unfold NfastRules.setCell at ih ⊢
    unfold NfastRules.getCellD at ih ⊢
    simp only [List.map_cons]
    by_cases hc : (p.1 == c2)
    · have hpc2 : p.1 = c2 := by simpa using hc
      have hne : (p.1 == c) = false := by
        rw [beq_eq_false_iff_ne, hpc2]
        exact h
      simp [hne, hc]
    · have hne2 : (p.1 == c2) = false := by simpa using hc
      by_cases hpc : (p.1 == c)
      · simpa [hpc, hne2] using ih
      · simpa [hpc, hne2] using ih

/-- processRow only writes the Source IP and Destination IP columns. -/
theorem getCellD_processRow_ne (order : List PyScalar → List PyScalar)
    (r : NfastRules.Row) (c : String)
    (h1 : c ≠ "Source IP") (h2 : c ≠ "Destination IP") :
    NfastRules.getCellD (NfastRules.processRow order r) c = NfastRules.getCellD r c := by
  unfold NfastRules.processRow
  rw [getCellD_setCell_ne _ _ _ _ h2, getCellD_setCell_ne _ _ _ _ h1]

/-- A one-row input table exercising the clean_data row loop (used by the
C4 theorems). -/
def c4Table : NfastRules.Table :=
  ⟨["Source Groups", "Source IP", "Destination Groups", "Destination IP"],
    [[("Source Groups", .scalar (.strV "[\"1.2.3.4\"]")),
      ("Source IP", .scalar (.strV "[]")),
      ("Destination Groups", .scalar (.strV "[]")),
      ("Destination IP", .scalar (.strV "[]"))]]⟩

/-- C4 counterexample: on a concrete passing input, clean_data writes a
table with exactly the input's columns - no new analysis columns are
added - and the original Source IP column does not survive unmodified:
it is rewritten in place. -/
theorem C4_counterexample_columns_rewritten_in_place :
    (NfastRules.clean_data id ⟨true, true, some c4Table, true⟩ true).written =
      some (NfastRules.processRows id c4Table) ∧
    (NfastRules.processRows id c4Table).header = c4Table.header ∧
    NfastRules.getCellD ((NfastRules.processRows id c4Table).rows.getD 0 []) "Source IP" ≠
      NfastRules.getCellD (c4Table.rows.getD 0 []) "Source IP" := by
  refine ⟨by decide, rfl, by decide⟩

/-- C4 (amended): for every input that passes the fatal checks, the
written output has exactly the input's rows in order and exactly the
input's column set, and every column other than Source IP and
Destination IP survives unmodified in every row. -/
theorem C4_amended_shape_invariant
    (order : List PyScalar → List PyScalar) (env : NfastRules.RunEnv)
    (t : NfastRules.Table) (cb : Bool)
    (hin : env.inputExists = true) (hread : env.readResult = some t)
    (hcols : NfastRules.missingColumnsOf t = []) (hsave : env.saveOk = true) :
    (NfastRules.clean_data order env cb).written = some (NfastRules.processRows order t) ∧
    (NfastRules.processRows order t).header = t.header ∧
    (NfastRules.processRows order t).rows.length = t.rows.length ∧
    (∀ (i : Nat) (c : String), c ≠ "Source IP" → c ≠ "Destination IP" →
      ((NfastRules.processRows order t).rows[i]?.map (fun r => NfastRules.getCellD r c)) =
        (t.rows[i]?.map (fun r => NfastRules.getCellD r c))) := by
  refine ⟨?_, rfl, by simp [NfastRules.processRows], ?_⟩
  · simp [NfastRules.clean_data, hin, hread, hcols, hsave]
  · intro i c h1 h2
    unfold NfastRules.processRows
    simp only [List.getElem?_map]
    cases hr : t.rows[i]? with
    | none => rfl
    | some r => simp [getCellD_processRow_ne order r c h1 h2]

/-- C4 witness: the amended theorem applied to the concrete one-row
table. -/
theorem C4_amended_shape_invariant_witness :
    (NfastRules.clean_data id ⟨true, true, some c4Table, true⟩ true).written =
      some (NfastRules.processRows id c4Table) :=
  (C4_amended_shape_invariant id ⟨true, true, some c4Table, true⟩ c4Table true
    rfl rfl (by decide) rfl).1

/-- C5: clean_data fails before writing: a missing input file ends the run
at once with nothing written (and no backup warning, since the backup is
never attempted), and a missing required column ends the run with nothing
written, reporting the missing columns together with the full list of
columns actually present. -/
theorem C5_fail_before_write (order : List PyScalar → List PyScalar)
    (env : NfastRules.RunEnv) (cb : Bool) :
    (env.inputExists = false →
      NfastRules.clean_data order env cb = ⟨.missingInput, none, []⟩) ∧
    (∀ t : NfastRules.Table, env.inputExists = true → env.readResult = some t →
      NfastRules.missingColumnsOf t ≠ [] →
      (NfastRules.clean_data order env cb).result =
        .missingCols (NfastRules.missingColumnsOf t) t.header ∧
      (NfastRules.clean_data order env cb).written = none) := by
  constructor
  · intro h
    simp [NfastRules.clean_data, h]
  · intro t hin hread hmiss
    simp [NfastRules.clean_data, hin, hread, hmiss]

/-- C5 witness: a table missing every required column aborts with nothing
written. -/
theorem C5_fail_before_write_witness :
    (NfastRules.clean_data id ⟨true, true, some ⟨["foo"], []⟩, true⟩ true).written = none :=
  ((C5_fail_before_write id ⟨true, true, some ⟨["foo"], []⟩, true⟩ true).2
    ⟨["foo"], []⟩ rfl rfl (by decide)).2

/-- An empty input table with all required columns (used by the C7
witness). -/
def c7Table : NfastRules.Table :=
  ⟨["Source Groups", "Source IP", "Destination Groups", "Destination IP"], []⟩

/-- C7: when only the backup copy fails, the run records the failure as a
warning and still processes the rows and writes the same output it would
have written had the backup succeeded. -/
theorem C7_backup_failure_nonfatal (order : List PyScalar → List PyScalar)
    (env : NfastRules.RunEnv) (t : NfastRules.Table)
    (hin : env.inputExists = true) (hback : env.backupOk = false)
    (hread : env.readResult = some t)
    (hcols : NfastRules.missingColumnsOf t = []) (hsave : env.saveOk = true) :
    (NfastRules.clean_data order env true).result = .success (NfastRules.processRows order t) ∧
    (NfastRules.clean_data order env true).written = some (NfastRules.processRows order t) ∧
    (NfastRules.clean_data order env true).warnings = ["backup-failed"] ∧
    (NfastRules.clean_data order env true).written =
      (NfastRules.clean_data order { env with backupOk := true } true).written := by
  simp [NfastRules.clean_data, hin, hback, hread, hcols, hsave]

/-- C7 witness: a run whose backup fails on an otherwise healthy
environment still succeeds and only warns. -/
theorem C7_backup_failure_nonfatal_witness :
    (NfastRules.clean_data id ⟨true, false, some c7Table, true⟩ true).warnings =
      ["backup-failed"] :=
  (C7_backup_failure_nonfatal id ⟨true, false, some c7Table, true⟩ c7Table
    rfl rfl rfl (by decide) rfl).2.2.1

/-- C6: a list field that is missing or empty, or whose literal evaluation
fails, degrades to the empty list in both scripts' parse_list_string -
no exception escapes (the functions are total) - and the row loop still
processes every row. -/
theorem C6_parse_failure_degrades (v : PyVal) (order : List PyScalar → List PyScalar)
    (t : NfastRules.Table) :
    (isna v = true ∨ v = .scalar (.strV "") →
      NfastRules.parse_list_string v = [] ∧ CombineGroups.parse_list_string v = []) ∧
    (∀ s : PyScalar, v = .scalar s → literalEval s.pyStr = none →
      NfastRules.parse_list_string v = [] ∧ CombineGroups.parse_list_string v = []) ∧
    (NfastRules.processRows order t).rows.length = t.rows.length := by
  refine ⟨?_, ?_, by simp [NfastRules.processRows]⟩
  · intro h
    rcases h with h | h
    · cases v with
      | scalar s =>
        cases s <;>
          simp_all [isna, NfastRules.parse_list_string, NfastRules.parse_list_stringE,
            CombineGroups.parse_list_string, CombineGroups.parse_list_stringE]
      | list l => simp [isna] at h
    · subst h
      exact ⟨rfl, rfl⟩
  · intro s hv hfail
    subst hv
    cases s <;>
      simp_all [NfastRules.parse_list_string, NfastRules.parse_list_stringE,
        CombineGroups.parse_list_string, CombineGroups.parse_list_stringE,
        isna, PyVal.pyStr]

/-- Every scalar input keeps parse_list_stringE on its non-raising path
(used only by the C8 theorems). -/
theorem parse_list_stringE_scalar_ok (w : PyScalar) :
    ∃ l, NfastRules.parse_list_stringE (.scalar w) = .ok l := by
  unfold NfastRules.parse_list_stringE
  by_cases h : (w = PyScalar.noneV || w = PyScalar.strV "") = true
  · exact ⟨[], by simp [h]⟩
  · cases hl : literalEval w.pyStr with
    | none => exact ⟨[], by simp [h, hl]⟩
    | some u =>
      cases u with
      | list l => exact ⟨l, by simp [h, hl]⟩
      | scalar x => exact ⟨[x], by simp [h, hl]⟩

/-- C8 counterexample: parse_list_string is not total on every input
value: handed an already-built list of two elements, the opening
pd.isna(s) truth test raises ValueError before the isinstance-list branch
can run. -/
theorem C8_counterexample_list_input_raises :
    NfastRules.parse_list_stringE (.list [.strV "a", .strV "b"]) = .error "ValueError" :=
  rfl

/-- C8 (amended): parse_list_string is total on every scalar input value
- every value a spreadsheet cell can hold - and never raises there,
agreeing with the fallible model: a missing or empty value yields the
empty list, a string whose literal evaluation is a list yields that list,
a value evaluating to a non-list literal is wrapped in a one-element
list, and any evaluation failure yields the empty list; a list input of
two or more elements instead raises ValueError at the pd.isna truth
test. -/
theorem C8_parse_list_string_scalar_total (v : PyVal) :
    (∀ s : PyScalar, v = .scalar s →
      NfastRules.parse_list_stringE v = .ok (NfastRules.parse_list_string v)) ∧
    (isna v = true ∨ v = .scalar (.strV "") → NfastRules.parse_list_string v = []) ∧
    (∀ s : PyScalar, v = .scalar s → s ≠ .noneV → s ≠ .strV "" →
      ((∀ l, literalEval s.pyStr = some (.list l) → NfastRules.parse_list_string v = l) ∧
       (∀ w, literalEval s.pyStr = some (.scalar w) → NfastRules.parse_list_string v = [w]) ∧
       (literalEval s.pyStr = none → NfastRules.parse_list_string v = []))) ∧
    (∀ l : List PyScalar, 2 ≤ l.length →
      NfastRules.parse_list_stringE (.list l) = .error "ValueError") := by
  refine ⟨?_, ?_, ?_, ?_⟩
  · intro s hv
    subst hv
    rcases parse_list_stringE_scalar_ok s with ⟨l, hl⟩
    rw [hl]
    unfold NfastRules.parse_list_string
    rw [hl]
  · intro h
    rcases h with h | h
    · cases v with
      | scalar s =>
        cases s <;>
          simp_all [isna, NfastRules.parse_list_string, NfastRules.parse_list_stringE]
      | list l => simp [isna] at h
    · subst h
      rfl
  · intro s hv hn he
    subst hv
    refine ⟨fun l hl => ?_, fun w hw => ?_, fun hf => ?_⟩ <;> cases s <;>
      simp_all [NfastRules.parse_list_string, NfastRules.parse_list_stringE,
        isna, PyVal.pyStr]
  · intro l hl
    rcases l with _ | ⟨a, _ | ⟨b, t⟩⟩
    · simp at hl
    · simp at hl
    · rfl

/-- C8 witness: a cell holding the text 42 evaluates to a non-list literal
and is wrapped in a one-element list. -/
theorem C8_parse_list_string_scalar_total_witness :
    NfastRules.parse_list_string (.scalar (.strV "42")) = [.intV 42] :=
  ((C8_parse_list_string_scalar_total (.scalar (.strV "42"))).2.2.1 (.strV "42") rfl
    (by decide) (by decide)).2.1 (.intV 42) (by decide)

/-- C6 witness: a malformed cell whose literal evaluation fails degrades
to the empty list. -/
theorem C6_parse_failure_degrades_witness :
    NfastRules.parse_list_string (.scalar (.strV "garbage[")) = [] :=
  (((C6_parse_failure_degrades (.scalar (.strV "garbage[")) id ⟨[], []⟩).2.1
    (.strV "garbage[") rfl (by decide))).1

/-- C9: every entry of a rewritten IP-list column survives the final
filter, so no entry of the written list matches the x.x.x.x-y.y.y.y
range pattern, whatever the set-iteration order and whether the entry
came from the IP column or was merged in from the Groups column; the
serialized cell is exactly the Python str() of that filtered list. -/
theorem C9_no_ip_range_entries (order : List PyScalar → List PyScalar)
    (ipCell grpCell : PyVal) :
    (∀ v ∈ NfastRules.cleanRowSideList order ipCell grpCell,
      NfastRules.is_ip_range v = false) ∧
    NfastRules.cleanRowSideStr order ipCell grpCell =
      pyListRepr (NfastRules.cleanRowSideList order ipCell grpCell) := by
  refine ⟨fun v hv => ?_, rfl⟩
  simp only [NfastRules.cleanRowSideList] at hv
  simpa using (List.mem_filter.mp hv).2

/-- C9 witness: in a row whose IP column holds one address and one range,
the surviving entry is range-free. -/
theorem C9_no_ip_range_entries_witness :
    NfastRules.is_ip_range (.strV "1.2.3.4") = false :=
  (C9_no_ip_range_entries id
    (.scalar (.strV "[\"1.2.3.4\", \"0.0.0.0-9.255.255.255\"]"))
    (.scalar (.strV "[]"))).1 (.strV "1.2.3.4") (by decide)

/-- C10: the empty list display is a two-sided identity for
combine_list_strings: missing, empty, empty-display or nan arguments are
normalised to the empty display and combine to it, and any other argument
combined with the empty display on either side comes back stripped of
surrounding whitespace but otherwise unchanged. -/
theorem C10_empty_display_identity (x : PyVal) :
    CombineStr.combine_list_strings (.scalar (.strV "[]")) (.scalar (.strV "[]")) = "[]" ∧
    (isna x = true ∨ pyStrip x.pyStr = "" ∨ pyStrip x.pyStr = "[]" ∨ pyStrip x.pyStr = "nan" →
      CombineStr.combine_list_strings (.scalar (.strV "[]")) x = "[]" ∧
      CombineStr.combine_list_strings x (.scalar (.strV "[]")) = "[]") ∧
    (isna x = false → pyStrip x.pyStr ≠ "" → pyStrip x.pyStr ≠ "[]" → pyStrip x.pyStr ≠ "nan" →
      CombineStr.combine_list_strings (.scalar (.strV "[]")) x = pyStrip x.pyStr ∧
      CombineStr.combine_list_strings x (.scalar (.strV "[]")) = pyStrip x.pyStr) := by
  have hbase : CombineStr.normArg (.scalar (.strV "[]")) = "[]" := by decide
  refine ⟨by decide, ?_, ?_⟩
  · intro h
    have hx : CombineStr.normArg x = "[]" := by
      unfold CombineStr.normArg
      rcases h with h | h | h | h <;> simp [h]
    exact ⟨by simp [CombineStr.combine_list_strings, hbase, hx],
      by simp [CombineStr.combine_list_strings, hbase, hx]⟩
  · intro h0 h1 h2 h3
    have hx : CombineStr.normArg x = pyStrip x.pyStr := by
      unfold CombineStr.normArg
      simp [h0, h1, h2, h3]
    exact ⟨by simp [CombineStr.combine_list_strings, hbase, hx, h2],
      by simp [CombineStr.combine_list_strings, hbase, hx, h2]⟩

/-- C10 witness: combining the empty display with a whitespace-padded list
display returns that display stripped. -/
theorem C10_empty_display_identity_witness :
    CombineStr.combine_list_strings (.scalar (.strV "[]")) (.scalar (.strV " [\"a\"] ")) =
      pyStrip (PyVal.pyStr (.scalar (.strV " [\"a\"] "))) :=
  ((C10_empty_display_identity (.scalar (.strV " [\"a\"] "))).2.2 rfl
    (by decide) (by decide) (by decide)).1
